import Mathlib

/-!
Verification development for the `metalrain` distance-field-generator.

The repository's Python scripts emit the Rust sources of an SDF atlas
generator as string literals.  The embedded Rust code is the program under
study; the definitions below are a shallow embedding of its core functions:

* `pack_atlas` — `src/atlas/packer.rs` (emitted by
  `src/distance-field-generator/script_3.py`, lines 394-445 of the script);
* `calculate_distance_to_edge`, `generate_sdf_from_mask`,
  `generate_msdf_from_mask` — `src/sdf/generator.rs` (same script,
  lines 21-96);
* the placement-update loop of `SdfGenerator::generate` — `src/lib.rs`
  (emitted by `src/distance-field-generator/script_2.py`, lines 200-293).

Modelling conventions:
* Rust `String` is modelled as `List Char` (`Str`), so prefix matching is
  plain pattern matching.
* Rust `u32` arithmetic is modelled on `Nat`; the two places where the Rust
  code can panic (`atlas_size / grid_size` with a zero divisor, and the
  unsigned subtraction `cell_size - padding * 2`) are made explicit as
  `PackPanic` outcomes, since Lean's total `/` and `-` would silently differ
  from the Rust semantics there.
* `f32` arithmetic in the distance-field engine is modelled on `ℝ`.  The
  properties proved below (sign of the result, clamping bound, in-bounds
  access, channel replication) are invariant under the rounding performed by
  `f32`: the minimum is capped by the initial accumulator `max_range`, and
  every square root taken is of an integer `≥ 1`, so correctly rounded
  square roots stay positive.
* `(image_count as f32).sqrt().ceil() as u32` is modelled by the integer
  ceiling square root `ceilSqrt`.  The two agree for every tile count below
  `2^23`, far beyond any count a square atlas of `u32` pixels can hold.
* Rust `HashMap`s whose iteration order is irrelevant to the claims are
  modelled as association lists; `insert` appends, `get_mut` updates the
  entry in place.
* `DynamicImage` tile payloads are an opaque type parameter `α`; the
  library calls `resize_exact(..).to_rgba8().get_pixel(px, py)` are modelled
  by an uninterpreted parameter `resample : α → Nat → Nat → Nat → Nat → Rgba`
  (image, target width, target height, px, py).
-/

namespace SdfGen

/-- Rust `String`, modelled as a list of characters. -/
abbrev Str : Type := List Char

/-- An RGBA pixel (`image::Rgba<u8>`); channel values are `u8` samples. -/
structure Rgba where
  r : Nat
  g : Nat
  b : Nat
  a : Nat
deriving DecidableEq

/-- Rust `pub struct AtlasPosition { x, y, width, height : u32 }` from
`src/atlas/packer.rs`. -/
structure AtlasPosition where
  x : Nat
  y : Nat
  width : Nat
  height : Nat
deriving DecidableEq

/-- The two arithmetic panics `pack_atlas` can hit: `atlas_size / grid_size`
with `grid_size = 0` (any build), and the `u32` underflow of
`cell_size - padding * 2` (panic with overflow checks; a wrapping build
would instead request a resize to a ≈2^32-pixel square, which aborts as
well).  Neither is a structured `Result` error. -/
inductive PackPanic where
  | divByZero
  | subUnderflow
deriving DecidableEq

/-- Model of `(n as f32).sqrt().ceil() as u32`: the least `g` with `n ≤ g * g`,
exact for every `n` this program can reach (see the header note).  Scanning
`0, 1, …, n` in order finds the least such `g`; a witness always exists
since `n ≤ n * n`. -/
def ceilSqrt (n : Nat) : Nat :=
  ((List.range (n + 1)).find? (fun g => decide (n ≤ g * g))).getD 0

/-- Placement of tile `i`: grid cell `(i % g, i / g)`, content origin
`(gridX * cell + padding, gridY * cell + padding)`, size `content × content`.
This is the body of the `positions.insert` in `pack_atlas`. -/
def mkPosition (i grid_size cell_size padding content_size : Nat) : AtlasPosition :=
  { x := i % grid_size * cell_size + padding
    y := i / grid_size * cell_size + padding
    width := content_size
    height := content_size }

/-- One tile's pixel copy into the atlas: the double loop
`for py in 0..content_size { for px in 0..content_size { if x + px <
atlas_size && y + py < atlas_size { atlas.put_pixel(..) } } }`, expressed as
a function update on the atlas viewed as `Nat → Nat → Rgba`. -/
def copyTile {α : Type} (resample : α → Nat → Nat → Nat → Nat → Rgba)
    (atlas_size content_size x y : Nat) (img : α)
    (atlas : Nat → Nat → Rgba) : Nat → Nat → Rgba :=
  fun qx qy =>
    if x ≤ qx ∧ qx < x + content_size ∧ y ≤ qy ∧ qy < y + content_size ∧
        qx < atlas_size ∧ qy < atlas_size then
      resample img content_size content_size (qx - x) (qy - y)
    else
      atlas qx qy

/-- The `positions` map accumulated by `pack_atlas`'s loop: one `insert`
per enumerated tile, in input order. -/
def gridPositions {α : Type} (images : List (Str × α))
    (grid_size cell_size padding content_size : Nat) : List (Str × AtlasPosition) :=
  images.enum.map (fun p =>
    (p.2.1, mkPosition p.1 grid_size cell_size padding content_size))

/-- The atlas image accumulated by `pack_atlas`'s loop: starting from the
zero-initialised (fully transparent) `RgbaImage::new`, each enumerated tile
copies its resampled pixels into its cell. -/
def packedAtlas {α : Type} (resample : α → Nat → Nat → Nat → Nat → Rgba)
    (images : List (Str × α))
    (atlas_size grid_size cell_size padding content_size : Nat) : Nat → Nat → Rgba :=
  images.enum.foldl (fun acc p =>
    copyTile resample atlas_size content_size
      (p.1 % grid_size * cell_size + padding)
      (p.1 / grid_size * cell_size + padding) p.2.2 acc)
    (fun _ _ => ⟨0, 0, 0, 0⟩)

/-- Rust `pub fn pack_atlas(images, atlas_size, padding)` from
`src/atlas/packer.rs`.  Returns the atlas image and the id → position map,
here as the list of `insert`s in iteration order. -/
def pack_atlas {α : Type} (resample : α → Nat → Nat → Nat → Nat → Rgba)
    (images : List (Str × α)) (atlas_size padding : Nat) :
    Except PackPanic ((Nat → Nat → Rgba) × List (Str × AtlasPosition)) :=
  let image_count := images.length
  let grid_size := ceilSqrt image_count
  if grid_size = 0 then
    Except.error PackPanic.divByZero
  else
    let cell_size := atlas_size / grid_size
    if cell_size < padding * 2 then
      Except.error PackPanic.subUnderflow
    else
      let content_size := cell_size - padding * 2
      Except.ok
        (packedAtlas resample images atlas_size grid_size cell_size padding content_size,
          gridPositions images grid_size cell_size padding content_size)

/-- Rust `pub struct CharacterInfo` from `src/lib.rs`; the `f32` metric fields
are modelled as `ℚ`. -/
structure CharacterInfo where
  x : Nat
  y : Nat
  width : Nat
  height : Nat
  advance : ℚ
  bearing_x : ℚ
  bearing_y : ℚ
deriving DecidableEq

/-- Rust `pub struct ShapeInfo` from `src/lib.rs`. -/
structure ShapeInfo where
  x : Nat
  y : Nat
  width : Nat
  height : Nat
deriving DecidableEq

/-- Model of `id.strip_prefix("char_")`. -/
def stripCharTag : Str → Option Str
  | 'c' :: 'h' :: 'a' :: 'r' :: '_' :: rest => some rest
  | _ => none

/-- Model of `id.strip_prefix("shape_")`. -/
def stripShapeTag : Str → Option Str
  | 's' :: 'h' :: 'a' :: 'p' :: 'e' :: '_' :: rest => some rest
  | _ => none

/-- Model of `format!("char_{}", ch)`: the tile id handed to the packer for a
character entry (`SdfGenerator::generate`). -/
def charTileId (ch : Char) : Str := 'c' :: 'h' :: 'a' :: 'r' :: '_' :: [ch]

/-- Model of `format!("shape_{}", name)`: the tile id handed to the packer for a
shape entry (`SdfGenerator::generate`). -/
def shapeTileId (name : Str) : Str := 's' :: 'h' :: 'a' :: 'p' :: 'e' :: '_' :: name

/-- The ordered id list of the `sdf_images` vector built by
`SdfGenerator::generate`: one `char_`-tagged id per character entry followed
by one `shape_`-tagged id per shape entry. -/
def sdfImageIds (chars : List Char) (shapeNames : List Str) : List Str :=
  chars.map charTileId ++ shapeNames.map shapeTileId

/-- Model of `HashMap::get_mut(&k)` followed by a field assignment: update the entry
with key `k` in place, leaving every other entry untouched. -/
def updateIfKey {κ ν : Type} [DecidableEq κ] (k : κ) (f : ν → ν)
    (l : List (κ × ν)) : List (κ × ν) :=
  l.map (fun e => if e.1 = k then (e.1, f e.2) else e)

/-- Model of `HashMap::get(&k)`: the value bound to `k`, scanning the association
list in order. -/
def lookupKey {κ ν : Type} [DecidableEq κ] (k : κ) : List (κ × ν) → Option ν
  | [] => none
  | e :: t => if e.1 = k then some e.2 else lookupKey k t

/-- One iteration of the placement-update loop of `SdfGenerator::generate`
(`src/lib.rs`): strip `char_`, take the first remaining character and set
that character entry's `x`/`y`; otherwise strip `shape_` and set that shape
entry's `x`/`y`; otherwise fall through silently. -/
def applyPosition (chars : List (Char × CharacterInfo)) (shapes : List (Str × ShapeInfo))
    (entry : Str × AtlasPosition) :
    List (Char × CharacterInfo) × List (Str × ShapeInfo) :=
  match stripCharTag entry.1 with
  | some stripped =>
    match stripped.head? with
    | some ch =>
      (updateIfKey ch (fun info => { info with x := entry.2.x, y := entry.2.y }) chars, shapes)
    | none => (chars, shapes)
  | none =>
    match stripShapeTag entry.1 with
    | some shape_name =>
      (chars, updateIfKey shape_name (fun info => { info with x := entry.2.x, y := entry.2.y }) shapes)
    | none => (chars, shapes)

/-- The whole `for (id, pos) in positions` loop of `SdfGenerator::generate`. -/
def update_positions (chars : List (Char × CharacterInfo)) (shapes : List (Str × ShapeInfo))
    (positions : List (Str × AtlasPosition)) :
    List (Char × CharacterInfo) × List (Str × ShapeInfo) :=
  positions.foldl (fun acc e => applyPosition acc.1 acc.2 e) (chars, shapes)

/-- The effect of one loop iteration on the character map alone; the
character branch of `applyPosition` never touches the shape map and vice
versa, so the two components of the fold decouple (proved in
`applyPosition_eq`). -/
def charUpdate (chars : List (Char × CharacterInfo)) (entry : Str × AtlasPosition) :
    List (Char × CharacterInfo) :=
  match stripCharTag entry.1 with
  | some stripped =>
    match stripped.head? with
    | some ch =>
      updateIfKey ch (fun info => { info with x := entry.2.x, y := entry.2.y }) chars
    | none => chars
  | none => chars

/-- The effect of one loop iteration on the shape map alone. -/
def shapeUpdate (shapes : List (Str × ShapeInfo)) (entry : Str × AtlasPosition) :
    List (Str × ShapeInfo) :=
  match stripCharTag entry.1 with
  | some _ => shapes
  | none =>
    match stripShapeTag entry.1 with
    | some shape_name =>
      updateIfKey shape_name
        (fun info => { info with x := entry.2.x, y := entry.2.y }) shapes
    | none => shapes

/-- Whether a placement id selects the character entry `ch` in the update
loop (`strip_prefix("char_")` succeeds and the first remaining character is
`ch`). -/
def claimsCharB (id : Str) (ch : Char) : Bool :=
  match stripCharTag id with
  | some stripped => stripped.head? == some ch
  | none => false

/-- Whether a placement id selects the shape entry `nm` in the update loop
(the id is not `char_`-tagged, `strip_prefix("shape_")` succeeds and the
remainder is `nm`). -/
def claimsShapeB (id : Str) (nm : Str) : Bool :=
  match stripCharTag id with
  | some _ => false
  | none =>
    match stripShapeTag id with
    | some shape_name => shape_name == nm
    | none => false

/-- Everything in a character entry except the mutable `x`/`y` fields. -/
def charSkeleton (e : Char × CharacterInfo) : Char × Nat × Nat × ℚ × ℚ × ℚ :=
  (e.1, e.2.width, e.2.height, e.2.advance, e.2.bearing_x, e.2.bearing_y)

/-- Everything in a shape entry except the mutable `x`/`y` fields. -/
def shapeSkeleton (e : Str × ShapeInfo) : Str × Nat × Nat :=
  (e.1, e.2.width, e.2.height)

/-- Rust `image::GrayImage`: dimensions plus the `u8` sample at each coordinate.
The pixel function is total; the program only ever reads in-bounds
coordinates (`get_pixel` panics otherwise), which claim C10 makes precise. -/
structure GrayImage where
  width : Nat
  height : Nat
  pixel : Nat → Nat → Nat

/-- Model of `mask.get_pixel(x, y).0[0] > 128`: the inside/outside classification
used by `calculate_distance_to_edge`. -/
def insideAt (mask : GrayImage) (x y : Nat) : Bool :=
  decide (128 < mask.pixel x y)

/-- The offsets `-search_radius..=search_radius` of one loop axis. -/
def axisOffsets (r : Int) : List Int :=
  (List.range (2 * r + 1).toNat).map (fun k => (k : Int) - r)

/-- The `(dy, dx)` pairs visited by the nested neighbourhood loops, in
iteration order (`dy` outer, `dx` inner). -/
def squareOffsets (r : Int) : List (Int × Int) :=
  (axisOffsets r).flatMap (fun dy => (axisOffsets r).map (fun dx => (dy, dx)))

/-- The loop body of `calculate_distance_to_edge`: for each offset, the
boundary-distance candidate it contributes, if any.  A candidate arises only
when `nx`/`ny` pass the bounds guard and the neighbour's classification
differs from the centre pixel's; its value is
`((dx * dx + dy * dy) as f32).sqrt()`. -/
noncomputable def boundaryCandidates (mask : GrayImage) (x y : Nat) (r : Int) : List ℝ :=
  (squareOffsets r).filterMap (fun d =>
    let nx : Int := (x : Int) + d.2
    let ny : Int := (y : Int) + d.1
    if 0 ≤ nx ∧ nx < (mask.width : Int) ∧ 0 ≤ ny ∧ ny < (mask.height : Int) then
      if insideAt mask x y ≠ insideAt mask nx.toNat ny.toNat then
        some (Real.sqrt ((d.2 * d.2 + d.1 * d.1 : Int) : ℝ))
      else none
    else none)

/-- Rust `fn calculate_distance_to_edge(mask, x, y, max_range)` from
`src/sdf/generator.rs`: `min_distance` starts at `max_range`, is folded with
`min` over the boundary candidates of the radius-`⌈max_range⌉` window, and
is negated when the centre pixel is inside. -/
noncomputable def calculate_distance_to_edge (mask : GrayImage) (x y : Nat)
    (max_range : ℝ) : ℝ :=
  let search_radius : Int := ⌈max_range⌉
  let min_distance := (boundaryCandidates mask x y search_radius).foldl min max_range
  if insideAt mask x y then -min_distance else min_distance

/-- The normalised `u8` written by `generate_sdf_from_mask`:
`((distance / range + 1.0) * 0.5 * 255.0).clamp(0.0, 255.0) as u8`
(the cast truncates, and the clamped value is non-negative, so it is the
floor). -/
noncomputable def sdfEncodedPixel (mask : GrayImage) (range : ℝ) (x y : Nat) : ℤ :=
  let distance := calculate_distance_to_edge mask x y range
  ⌊min (max ((distance / range + 1) * 0.5 * 255) 0) 255⌋

/-- A produced single-channel field: dimensions and encoded samples. -/
structure EncodedImage where
  width : Nat
  height : Nat
  pixel : Nat → Nat → ℤ

/-- A produced three-channel (RGB) field. -/
structure EncodedRgbImage where
  width : Nat
  height : Nat
  pixel : Nat → Nat → ℤ × ℤ × ℤ

/-- Rust `SdfGenerator::generate_sdf_from_mask`: an image of the mask's
dimensions whose every in-bounds pixel holds the encoded distance. -/
noncomputable def generate_sdf_from_mask (mask : GrayImage) (range : ℝ) : EncodedImage :=
  { width := mask.width
    height := mask.height
    pixel := fun x y => sdfEncodedPixel mask range x y }

/-- Rust `SdfGenerator::generate_msdf_from_mask`: computes the single-channel
field and copies its gray value into all three channels. -/
noncomputable def generate_msdf_from_mask (mask : GrayImage) (range : ℝ) : EncodedRgbImage :=
  let sdf := generate_sdf_from_mask mask range
  { width := sdf.width
    height := sdf.height
    pixel := fun x y => (sdf.pixel x y, sdf.pixel x y, sdf.pixel x y) }

/-- A point `(px, py)` lies in the placement rectangle. -/
def inRect (p : AtlasPosition) (px py : Nat) : Prop :=
  p.x ≤ px ∧ px < p.x + p.width ∧ p.y ≤ py ∧ py < p.y + p.height

/-- The trivial resampler used to instantiate `pack_atlas` on concrete
inputs whose pixel content is irrelevant. -/
def resampleU : Unit → Nat → Nat → Nat → Nat → Rgba :=
  fun _ _ _ _ _ => ⟨0, 0, 0, 0⟩

/-- A second resampler over `Unit`, used to exercise pixel-content
independence on concrete inputs. -/
def resampleU2 : Unit → Nat → Nat → Nat → Nat → Rgba :=
  fun _ _ _ _ _ => ⟨9, 9, 9, 9⟩

/-- A concrete 2×1 mask whose left pixel is inside (255) and right pixel is
outside (0); used to instantiate the distance-field theorems. -/
def witMask : GrayImage :=
  { width := 2, height := 1, pixel := fun x _ => if x = 0 then 255 else 0 }

/-- Variant of `witMask` with different pixel values outside its bounds; agrees with
`witMask` on every in-bounds coordinate. -/
def witMaskJunk : GrayImage :=
  { width := 2, height := 1
    pixel := fun x y => if x < 2 ∧ y < 1 then witMask.pixel x y else 200 }

/- ------------------------------------------------------------------ -/
/- Helper lemmas                                                       -/
/- ------------------------------------------------------------------ -/

lemma ceilSqrt_find (n : Nat) :
    ∃ g, (List.range (n + 1)).find? (fun g => decide (n ≤ g * g)) = some g := by
  have hm : n ∈ List.range (n + 1) := List.mem_range.mpr (Nat.lt_succ_self n)
  have hsome : ((List.range (n + 1)).find? (fun g => decide (n ≤ g * g))).isSome := by
    rw [List.find?_isSome]
    refine ⟨n, hm, ?_⟩
    simp only [decide_eq_true_eq]
    rcases Nat.eq_zero_or_pos n with h | h
    · simp [h]
    · calc n = n * 1 := (Nat.mul_one n).symm
        _ ≤ n * n := Nat.mul_le_mul_left n h
  exact Option.isSome_iff_exists.mp hsome

lemma le_ceilSqrt_sq (n : Nat) : n ≤ ceilSqrt n * ceilSqrt n := by
  obtain ⟨g, hg⟩ := ceilSqrt_find n
  have hp := List.find?_some hg
  simp only [decide_eq_true_eq] at hp
  unfold ceilSqrt
  rw [hg]
  exact hp

lemma ceilSqrt_pos (n : Nat) (hn : 0 < n) : 0 < ceilSqrt n := by
  obtain ⟨g, hg⟩ := ceilSqrt_find n
  have hp := List.find?_some hg
  simp only [decide_eq_true_eq] at hp
  unfold ceilSqrt
  rw [hg]
  rcases Nat.eq_zero_or_pos g with h | h
  · subst h
    simp only [Nat.mul_zero, Nat.le_zero] at hp
    omega
  · exact h

/-- On success, `pack_atlas` returns exactly the grid placements, one per
input tile in input order. -/
lemma pack_atlas_ok {α : Type} (resample : α → Nat → Nat → Nat → Nat → Rgba)
    (images : List (Str × α)) (atlas_size padding : Nat)
    (hne : images ≠ [])
    (hpad : padding * 2 ≤ atlas_size / ceilSqrt images.length) :
    pack_atlas resample images atlas_size padding =
      Except.ok
        (packedAtlas resample images atlas_size (ceilSqrt images.length)
          (atlas_size / ceilSqrt images.length) padding
          (atlas_size / ceilSqrt images.length - padding * 2),
        gridPositions images (ceilSqrt images.length)
          (atlas_size / ceilSqrt images.length) padding
          (atlas_size / ceilSqrt images.length - padding * 2)) := by
  have hg : ¬ ceilSqrt images.length = 0 := by
    have hlen : 0 < images.length := List.length_pos.mpr hne
    have := ceilSqrt_pos images.length hlen
    omega
  simp only [pack_atlas]
  rw [if_neg hg, if_neg (by omega : ¬ atlas_size / ceilSqrt images.length < padding * 2)]

lemma length_gridPositions {α : Type} (images : List (Str × α))
    (g c p s : Nat) : (gridPositions images g c p s).length = images.length := by
  simp [gridPositions, List.enum_length]

lemma getElem?_gridPositions {α : Type} (images : List (Str × α)) (g c p s : Nat)
    (i : Nat) (hi : i < images.length) :
    (gridPositions images g c p s)[i]? =
      some ((images.get ⟨i, hi⟩).1, mkPosition i g c p s) := by
  simp [gridPositions, List.getElem?_map, List.getElem?_enum, List.getElem?_eq_getElem hi]

lemma gridPositions_map_fst {α : Type} (images : List (Str × α)) (g c p s : Nat) :
    (gridPositions images g c p s).map Prod.fst = images.map Prod.fst := by
  apply List.ext_getElem?
  intro n
  simp only [gridPositions, List.getElem?_map, List.getElem?_enum, Option.map_map]
  cases images[n]? <;> rfl

lemma gridPositions_congr {α β : Type} (images1 : List (Str × α))
    (images2 : List (Str × β)) (g c p s : Nat)
    (hids : images1.map Prod.fst = images2.map Prod.fst) :
    gridPositions images1 g c p s = gridPositions images2 g c p s := by
  apply List.ext_getElem?
  intro n
  have hn : images1[n]?.map Prod.fst = images2[n]?.map Prod.fst := by
    rw [← List.getElem?_map, ← List.getElem?_map, hids]
  simp only [gridPositions, List.getElem?_map, List.getElem?_enum, Option.map_map]
  cases h1 : images1[n]? with
  | none =>
    rw [h1] at hn
    cases h2 : images2[n]? with
    | none => rfl
    | some b => rw [h2] at hn; simp at hn
  | some a =>
    rw [h1] at hn
    cases h2 : images2[n]? with
    | none => rw [h2] at hn; simp at hn
    | some b =>
      rw [h2] at hn
      have hab : a.1 = b.1 := by simpa using hn
      simp [Function.comp, hab]

lemma mem_gridPositions {α : Type} {images : List (Str × α)} {g c p s : Nat}
    {e : Str × AtlasPosition}
    (he : e ∈ gridPositions images g c p s) :
    ∃ k, ∃ hk : k < images.length, e = ((images.get ⟨k, hk⟩).1, mkPosition k g c p s) := by
  rw [List.mem_iff_getElem] at he
  obtain ⟨k, hk, hke⟩ := he
  rw [length_gridPositions] at hk
  refine ⟨k, hk, ?_⟩
  have := getElem?_gridPositions images g c p s k hk
  rw [List.getElem?_eq_getElem (by rw [length_gridPositions]; exact hk)] at this
  rw [← hke]
  exact Option.some.inj this

/- ------------------------------------------------------------------ -/
/- Claim theorems                                                      -/
/- ------------------------------------------------------------------ -/

/-- C1: evaluation of the code at the failing input.  The claim says that
packing an empty tile list succeeds with an empty map and a background-only
atlas; the code instead computes `grid_size = ceil(sqrt(0)) = 0` and panics
on the integer division `atlas_size / grid_size`, for every `atlas_size`
and `padding`. -/
theorem C1_empty_input_divides_by_zero {α : Type}
    (resample : α → Nat → Nat → Nat → Nat → Rgba) (atlas_size padding : Nat) :
    pack_atlas resample ([] : List (Str × α)) atlas_size padding =
      Except.error PackPanic.divByZero := rfl

/-- C2 (counterexample): with one tile, `atlasSize = 4`, `padding = 2`, the
cell size `c = 4` satisfies `c <= 2*padding`, yet `pack_atlas` does not fail
with any error — it succeeds and returns a placement (of zero content
size). -/
theorem C2_counterexample :
    Except.map Prod.snd (pack_atlas resampleU [((['A'] : Str), ())] 4 2) =
      Except.ok [((['A'] : Str), (⟨2, 2, 0, 0⟩ : AtlasPosition))] := rfl

/-- C2 (amended): the packer performs no `AtlasOverflow` check.  For a
non-empty tile list with cell size `c = atlasSize / g` and `c ≤ 2*padding`:
if `c = 2*padding` packing succeeds with zero-sized content rectangles, and
if `c < 2*padding` the unsigned subtraction `c - 2*padding` underflows — an
arithmetic panic, not a structured error. -/
theorem C2_no_overflow_check {α : Type}
    (resample : α → Nat → Nat → Nat → Nat → Rgba)
    (images : List (Str × α)) (atlas_size padding : Nat)
    (hne : images ≠ [])
    (hle : atlas_size / ceilSqrt images.length ≤ padding * 2) :
    (atlas_size / ceilSqrt images.length = padding * 2 →
      ∃ atlas positions,
        pack_atlas resample images atlas_size padding = Except.ok (atlas, positions) ∧
        positions ≠ [] ∧ ∀ e ∈ positions, e.2.width = 0 ∧ e.2.height = 0) ∧
    (atlas_size / ceilSqrt images.length < padding * 2 →
      pack_atlas resample images atlas_size padding =
        Except.error PackPanic.subUnderflow) := by
  constructor
  · intro heq
    have hok := pack_atlas_ok resample images atlas_size padding hne heq.ge
    refine ⟨_, _, hok, ?_, ?_⟩
    · have hlen : 0 < images.length := List.length_pos.mpr hne
      intro hnil
      have := congrArg List.length hnil
      rw [length_gridPositions] at this
      simp only [List.length_nil] at this
      omega
    · intro e he
      obtain ⟨k, hk, rfl⟩ := mem_gridPositions he
      simp only [mkPosition]
      omega
  · intro hlt
    have hg : ¬ ceilSqrt images.length = 0 := by
      have hlen : 0 < images.length := List.length_pos.mpr hne
      have := ceilSqrt_pos images.length hlen
      omega
    simp only [pack_atlas]
    rw [if_neg hg, if_pos hlt]

/-- C2 witness: one tile, `atlasSize = 4`, `padding = 2` satisfies the
hypotheses (`c = 4 ≤ 2*padding = 4`). -/
theorem C2_no_overflow_check_witness :
    (([((['A'] : Str), ())] : List (Str × Unit)) ≠ [] ∧
      4 / ceilSqrt ([((['A'] : Str), ())] : List (Str × Unit)).length ≤ 2 * 2) ∧
    ((4 / ceilSqrt ([((['A'] : Str), ())] : List (Str × Unit)).length = 2 * 2 →
      ∃ atlas positions,
        pack_atlas resampleU [((['A'] : Str), ())] 4 2 = Except.ok (atlas, positions) ∧
        positions ≠ [] ∧ ∀ e ∈ positions, e.2.width = 0 ∧ e.2.height = 0) ∧
    (4 / ceilSqrt ([((['A'] : Str), ())] : List (Str × Unit)).length < 2 * 2 →
      pack_atlas resampleU [((['A'] : Str), ())] 4 2 =
        Except.error PackPanic.subUnderflow)) :=
  ⟨⟨by decide, by decide⟩,
    C2_no_overflow_check resampleU [((['A'] : Str), ())] 4 2 (by decide) (by decide)⟩

/-- C4: for a non-empty tile list with positive content size
`s = atlasSize/g - 2*padding`, packing succeeds and tile `i` (in input
order) is placed at grid cell `(i mod g, i div g)` with content origin
`(gridX*c + padding, gridY*c + padding)` and size `s × s`. -/
theorem C4_grid_placement {α : Type} (resample : α → Nat → Nat → Nat → Nat → Rgba)
    (images : List (Str × α)) (atlas_size padding : Nat)
    (hne : images ≠ [])
    (hs : padding * 2 < atlas_size / ceilSqrt images.length) :
    ∃ atlas positions,
      pack_atlas resample images atlas_size padding = Except.ok (atlas, positions) ∧
      positions.length = images.length ∧
      ∀ i, (hi : i < images.length) →
        positions[i]? = some ((images.get ⟨i, hi⟩).1,
          { x := i % ceilSqrt images.length * (atlas_size / ceilSqrt images.length) + padding
            y := i / ceilSqrt images.length * (atlas_size / ceilSqrt images.length) + padding
            width := atlas_size / ceilSqrt images.length - padding * 2
            height := atlas_size / ceilSqrt images.length - padding * 2 }) := by
  have hok := pack_atlas_ok resample images atlas_size padding hne (le_of_lt hs)
  refine ⟨_, _, hok, length_gridPositions _ _ _ _ _, ?_⟩
  intro i hi
  rw [getElem?_gridPositions images _ _ _ _ i hi]
  rfl

/-- C4 witness: the spec's scenario — three 64×64 tiles `A`, `B`, `C`,
`atlasSize = 192`, `padding = 0` gives `g = 2`, `c = 96` and placements
A = (0,0,96,96), B = (96,0,96,96), C = (0,96,96,96). -/
theorem C4_grid_placement_witness :
    (([((['A'] : Str), ()), (['B'], ()), (['C'], ())] : List (Str × Unit)) ≠ [] ∧
      0 * 2 < 192 / ceilSqrt ([((['A'] : Str), ()), (['B'], ()), (['C'], ())] :
        List (Str × Unit)).length) ∧
    (∃ atlas positions,
      pack_atlas resampleU [((['A'] : Str), ()), (['B'], ()), (['C'], ())] 192 0 =
        Except.ok (atlas, positions) ∧
      positions.length = 3 ∧
      positions[0]? = some ((['A'] : Str), (⟨0, 0, 96, 96⟩ : AtlasPosition)) ∧
      positions[1]? = some ((['B'] : Str), (⟨96, 0, 96, 96⟩ : AtlasPosition)) ∧
      positions[2]? = some ((['C'] : Str), (⟨0, 96, 96, 96⟩ : AtlasPosition))) := by
  refine ⟨⟨by decide, by decide⟩, ?_⟩
  obtain ⟨atlas, positions, hok, hlen, hall⟩ :=
    C4_grid_placement resampleU [((['A'] : Str), ()), (['B'], ()), (['C'], ())] 192 0
      (by decide) (by decide)
  refine ⟨atlas, positions, hok, hlen, ?_, ?_, ?_⟩
  · rw [hall 0 (by decide)]; rfl
  · rw [hall 1 (by decide)]; rfl
  · rw [hall 2 (by decide)]; rfl

/-- C7: placement assignment depends only on the ordered id list, the tile
count and the atlas parameters — two invocations whose tile lists carry the
same ids in the same order produce identical placement maps, whatever the
tile images and however they resample. -/
theorem C7_content_independent {α β : Type}
    (ra : α → Nat → Nat → Nat → Nat → Rgba) (rb : β → Nat → Nat → Nat → Nat → Rgba)
    (images1 : List (Str × α)) (images2 : List (Str × β)) (atlas_size padding : Nat)
    (hids : images1.map Prod.fst = images2.map Prod.fst) :
    Except.map Prod.snd (pack_atlas ra images1 atlas_size padding) =
      Except.map Prod.snd (pack_atlas rb images2 atlas_size padding) := by
  have hlen : images1.length = images2.length := by
    have := congrArg List.length hids
    simpa using this
  simp only [pack_atlas, hlen]
  by_cases hg : ceilSqrt images2.length = 0
  · rw [if_pos hg, if_pos hg]
  · rw [if_neg hg, if_neg hg]
    by_cases hc : atlas_size / ceilSqrt images2.length < padding * 2
    · rw [if_pos hc, if_pos hc]
    · rw [if_neg hc, if_neg hc]
      simp only [Except.map]
      rw [gridPositions_congr images1 images2 _ _ _ _ hids]

/-- C7 witness: the same single-tile id list packed with two different
pixel interpretations yields the same placement map. -/
theorem C7_content_independent_witness :
    ([((['A'] : Str), ())] : List (Str × Unit)).map Prod.fst =
      ([((['A'] : Str), ())] : List (Str × Unit)).map Prod.fst ∧
    Except.map Prod.snd (pack_atlas resampleU [((['A'] : Str), ())] 64 1) =
      Except.map Prod.snd (pack_atlas resampleU2 [((['A'] : Str), ())] 64 1) :=
  ⟨rfl, C7_content_independent resampleU resampleU2
    [((['A'] : Str), ())] [((['A'] : Str), ())] 64 1 rfl⟩

/-- C8: every placement of a successful pack lies inside the atlas
(`x + width ≤ atlasSize`, `y + height ≤ atlasSize`), and placements of
distinct tile ids occupy disjoint rectangles, also when `atlasSize` is not
divisible by the grid side. -/
lemma gridPositions_bounds {α : Type} (images : List (Str × α))
    (atlas_size g c padding s : Nat)
    (hg : 0 < g) (hsq : images.length ≤ g * g)
    (hpads : padding + s ≤ c) (hgc : g * c ≤ atlas_size) :
    (∀ e ∈ gridPositions images g c padding s,
      e.2.x + e.2.width ≤ atlas_size ∧ e.2.y + e.2.height ≤ atlas_size) ∧
    (∀ e1 ∈ gridPositions images g c padding s,
      ∀ e2 ∈ gridPositions images g c padding s, e1.1 ≠ e2.1 →
        ∀ px py, ¬(inRect e1.2 px py ∧ inRect e2.2 px py)) := by
  constructor
  · intro e he
    obtain ⟨k, hk, rfl⟩ := mem_gridPositions he
    have hmod : k % g + 1 ≤ g := Nat.mod_lt k hg
    have hdiv : k / g + 1 ≤ g := by
      have hlt : k < g * g := lt_of_lt_of_le hk hsq
      exact (Nat.div_lt_iff_lt_mul hg).mpr hlt
    simp only [mkPosition]
    constructor
    · calc k % g * c + padding + s
          = k % g * c + (padding + s) := by rw [Nat.add_assoc]
        _ ≤ k % g * c + c := Nat.add_le_add_left hpads _
        _ = (k % g + 1) * c := (Nat.succ_mul _ _).symm
        _ ≤ g * c := Nat.mul_le_mul_right c hmod
        _ ≤ atlas_size := hgc
    · calc k / g * c + padding + s
          = k / g * c + (padding + s) := by rw [Nat.add_assoc]
        _ ≤ k / g * c + c := Nat.add_le_add_left hpads _
        _ = (k / g + 1) * c := (Nat.succ_mul _ _).symm
        _ ≤ g * c := Nat.mul_le_mul_right c hdiv
        _ ≤ atlas_size := hgc
  · rintro e1 he1 e2 he2 hne12 px py ⟨hr1, hr2⟩
    obtain ⟨k, hk, rfl⟩ := mem_gridPositions he1
    obtain ⟨l, hl, rfl⟩ := mem_gridPositions he2
    have hkl : k ≠ l := by
      rintro rfl
      exact hne12 rfl
    simp only [mkPosition, inRect] at hr1 hr2
    have hxdiv : ∀ m, m % g * c + padding ≤ px → px < m % g * c + padding + s →
        px / c = m % g := by
      intro m hlo hhi
      apply Nat.div_eq_of_lt_le
      · exact le_trans (Nat.le_add_right _ _) hlo
      · calc px < m % g * c + padding + s := hhi
          _ = m % g * c + (padding + s) := by rw [Nat.add_assoc]
          _ ≤ m % g * c + c := Nat.add_le_add_left hpads _
          _ = (m % g + 1) * c := (Nat.succ_mul _ _).symm
    have hydiv : ∀ m, m / g * c + padding ≤ py → py < m / g * c + padding + s →
        py / c = m / g := by
      intro m hlo hhi
      apply Nat.div_eq_of_lt_le
      · exact le_trans (Nat.le_add_right _ _) hlo
      · calc py < m / g * c + padding + s := hhi
          _ = m / g * c + (padding + s) := by rw [Nat.add_assoc]
          _ ≤ m / g * c + c := Nat.add_le_add_left hpads _
          _ = (m / g + 1) * c := (Nat.succ_mul _ _).symm
    have hmod_eq : k % g = l % g := by
      rw [← hxdiv k hr1.1 hr1.2.1, ← hxdiv l hr2.1 hr2.2.1]
    have hdiv_eq : k / g = l / g := by
      rw [← hydiv k hr1.2.2.1 hr1.2.2.2, ← hydiv l hr2.2.2.1 hr2.2.2.2]
    apply hkl
    have h1 := Nat.div_add_mod k g
    have h2 := Nat.div_add_mod l g
    rw [hdiv_eq, hmod_eq] at h1
    exact h1.symm.trans h2

theorem C8_bounds_and_disjoint {α : Type} (resample : α → Nat → Nat → Nat → Nat → Rgba)
    (images : List (Str × α)) (atlas_size padding : Nat)
    (hne : images ≠ [])
    (hpad : padding * 2 ≤ atlas_size / ceilSqrt images.length) :
    ∃ atlas positions,
      pack_atlas resample images atlas_size padding = Except.ok (atlas, positions) ∧
      (∀ e ∈ positions, e.2.x + e.2.width ≤ atlas_size ∧
        e.2.y + e.2.height ≤ atlas_size) ∧
      (∀ e1 ∈ positions, ∀ e2 ∈ positions, e1.1 ≠ e2.1 →
        ∀ px py, ¬(inRect e1.2 px py ∧ inRect e2.2 px py)) := by
  have hok := pack_atlas_ok resample images atlas_size padding hne hpad
  have hg : 0 < ceilSqrt images.length :=
    ceilSqrt_pos images.length (List.length_pos.mpr hne)
  have hgc : ceilSqrt images.length * (atlas_size / ceilSqrt images.length) ≤ atlas_size := by
    rw [mul_comm]
    exact Nat.div_mul_le_self atlas_size (ceilSqrt images.length)
  have hpads : padding + (atlas_size / ceilSqrt images.length - padding * 2) ≤
      atlas_size / ceilSqrt images.length := by
    omega
  have hmain := gridPositions_bounds images atlas_size (ceilSqrt images.length)
    (atlas_size / ceilSqrt images.length) padding
    (atlas_size / ceilSqrt images.length - padding * 2)
    hg (le_ceilSqrt_sq images.length) hpads hgc
  exact ⟨_, _, hok, hmain.1, hmain.2⟩

/-- C8 witness: two tiles, `atlasSize = 192`, `padding = 0`. -/
theorem C8_bounds_and_disjoint_witness :
    (([((['A'] : Str), ()), (['B'], ())] : List (Str × Unit)) ≠ [] ∧
      0 * 2 ≤ 192 / ceilSqrt ([((['A'] : Str), ()), (['B'], ())] :
        List (Str × Unit)).length) ∧
    (∃ atlas positions,
      pack_atlas resampleU [((['A'] : Str), ()), (['B'], ())] 192 0 =
        Except.ok (atlas, positions) ∧
      (∀ e ∈ positions, e.2.x + e.2.width ≤ 192 ∧ e.2.y + e.2.height ≤ 192) ∧
      (∀ e1 ∈ positions, ∀ e2 ∈ positions, e1.1 ≠ e2.1 →
        ∀ px py, ¬(inRect e1.2 px py ∧ inRect e2.2 px py))) :=
  ⟨⟨by decide, by decide⟩,
    C8_bounds_and_disjoint resampleU [((['A'] : Str), ()), (['B'], ())] 192 0
      (by decide) (by decide)⟩

lemma lookupKey_updateIfKey {κ ν : Type} [DecidableEq κ] (k : κ) (f : ν → ν)
    (l : List (κ × ν)) :
    lookupKey k (updateIfKey k f l) = (lookupKey k l).map f := by
  induction l with
  | nil => rfl
  | cons a t ih =>
    show lookupKey k ((if a.1 = k then (a.1, f a.2) else a) :: updateIfKey k f t) =
      (lookupKey k (a :: t)).map f
    by_cases h : a.1 = k
    · rw [if_pos h]
      simp [lookupKey, h]
    · rw [if_neg h]
      simp [lookupKey, h, ih]

lemma lookupKey_eq_of_mem {κ ν : Type} [DecidableEq κ] {l : List (κ × ν)} {k : κ} {v : ν}
    (hnd : (l.map Prod.fst).Nodup) (hm : (k, v) ∈ l) :
    lookupKey k l = some v := by
  induction l with
  | nil => simp at hm
  | cons a t ih =>
    rw [List.map_cons, List.nodup_cons] at hnd
    rcases List.mem_cons.mp hm with heq | hmt
    · subst heq
      simp [lookupKey]
    · have hk : ¬ a.1 = k := by
        intro h
        apply hnd.1
        rw [h]
        exact List.mem_map_of_mem Prod.fst hmt
      simp [lookupKey, hk, ih hnd.2 hmt]

lemma charTileId_injective : Function.Injective charTileId := by
  intro a b h
  simpa [charTileId] using h

lemma shapeTileId_injective : Function.Injective shapeTileId := by
  intro a b h
  simpa [shapeTileId] using h

lemma charTileId_ne_shapeTileId (ch : Char) (nm : Str) :
    charTileId ch ≠ shapeTileId nm := by
  intro h
  simp [charTileId, shapeTileId] at h

lemma countP_eq_one_of_nodup_mem {γ : Type} (f : γ → Str)
    (hf : Function.Injective f) {l : List γ} (hnd : l.Nodup) {a : γ} (ha : a ∈ l) :
    l.countP (fun x => decide (f x = f a)) = 1 := by
  induction l with
  | nil => simp at ha
  | cons b t ih =>
    rw [List.nodup_cons] at hnd
    rcases List.mem_cons.mp ha with heq | hat
    · subst heq
      have ht : t.countP (fun x => decide (f x = f a)) = 0 := by
        rw [List.countP_eq_zero]
        intro x hx
        simp only [decide_eq_true_eq]
        intro hfx
        apply hnd.1
        rw [← hf hfx]
        exact hx
      rw [List.countP_cons, ht]
      simp
    · have hb : ¬ f b = f a := by
        intro h
        apply hnd.1
        rw [hf h]
        exact hat
      rw [List.countP_cons, ih hnd.2 hat]
      simp [hb]

/-- C5 (counterexample): a placement id matching neither the `char_` nor
the `shape_` convention does not raise any `DanglingPlacement` error — the
registry-update loop completes normally and leaves both maps unchanged. -/
theorem C5_counterexample :
    update_positions [('A', ⟨0, 0, 64, 64, 58, 2, 62⟩)] []
        [((['b', 'o', 'g', 'u', 's'] : Str), (⟨1, 2, 3, 4⟩ : AtlasPosition))] =
      ([('A', ⟨0, 0, 64, 64, 58, 2, 62⟩)], []) := rfl

/-- C5 (amended): unmatched ids are silently ignored rather than reported;
nevertheless, for the tile lists `SdfGenerator::generate` actually builds —
one `char_`-id per character entry and one `shape_`-id per shape entry,
with duplicate-free keys — a successful pack yields exactly
`|characters| + |shapes|` placements and every placement id is claimed by
exactly one registry entry. -/
theorem C5_registry_bijection {α : Type} (resample : α → Nat → Nat → Nat → Nat → Rgba)
    (chars : List (Char × CharacterInfo)) (shapes : List (Str × ShapeInfo))
    (images : List (Str × α)) (atlas_size padding : Nat)
    (hids : images.map Prod.fst = sdfImageIds (chars.map Prod.fst) (shapes.map Prod.fst))
    (hndc : (chars.map Prod.fst).Nodup) (hnds : (shapes.map Prod.fst).Nodup)
    (hne : images ≠ [])
    (hpad : padding * 2 ≤ atlas_size / ceilSqrt images.length) :
    ∃ atlas positions,
      pack_atlas resample images atlas_size padding = Except.ok (atlas, positions) ∧
      positions.length = chars.length + shapes.length ∧
      ∀ e ∈ positions,
        (chars.map Prod.fst).countP (fun ch => decide (charTileId ch = e.1)) +
          (shapes.map Prod.fst).countP (fun nm => decide (shapeTileId nm = e.1)) = 1 := by
  have hok := pack_atlas_ok resample images atlas_size padding hne hpad
  refine ⟨_, _, hok, ?_, ?_⟩
  · rw [length_gridPositions]
    have hlen := congrArg List.length hids
    simpa [sdfImageIds] using hlen
  · intro e he
    have hid : e.1 ∈ images.map Prod.fst := by
      rw [← gridPositions_map_fst images (ceilSqrt images.length)
        (atlas_size / ceilSqrt images.length) padding
        (atlas_size / ceilSqrt images.length - padding * 2)]
      exact List.mem_map_of_mem Prod.fst he
    rw [hids] at hid
    rcases List.mem_append.mp hid with hin | hin
    · obtain ⟨ch, hch, hcheq⟩ := List.mem_map.mp hin
      rw [← hcheq]
      have h1 : (chars.map Prod.fst).countP
          (fun x => decide (charTileId x = charTileId ch)) = 1 :=
        countP_eq_one_of_nodup_mem charTileId charTileId_injective hndc hch
      have h2 : (shapes.map Prod.fst).countP
          (fun nm => decide (shapeTileId nm = charTileId ch)) = 0 := by
        rw [List.countP_eq_zero]
        intro nm _
        simp only [decide_eq_true_eq]
        exact fun h => charTileId_ne_shapeTileId ch nm h.symm
      omega
    · obtain ⟨nm, hnm, hnmeq⟩ := List.mem_map.mp hin
      rw [← hnmeq]
      have h1 : (chars.map Prod.fst).countP
          (fun x => decide (charTileId x = shapeTileId nm)) = 0 := by
        rw [List.countP_eq_zero]
        intro ch _
        simp only [decide_eq_true_eq]
        exact fun h => charTileId_ne_shapeTileId ch nm h
      have h2 : (shapes.map Prod.fst).countP
          (fun x => decide (shapeTileId x = shapeTileId nm)) = 1 :=
        countP_eq_one_of_nodup_mem shapeTileId shapeTileId_injective hnds hnm
      omega

/-- C5 witness: one character `A` and one shape `circle`, tile ids built
exactly as `SdfGenerator::generate` builds them. -/
theorem C5_registry_bijection_witness :
    (([(charTileId 'A', ()), (shapeTileId ['c', 'i', 'r', 'c', 'l', 'e'], ())] :
        List (Str × Unit)).map Prod.fst =
      sdfImageIds ([('A', (⟨0, 0, 64, 64, 58, 2, 62⟩ : CharacterInfo))].map Prod.fst)
        (([((['c', 'i', 'r', 'c', 'l', 'e'] : Str), (⟨0, 0, 64, 64⟩ : ShapeInfo))]).map Prod.fst) ∧
      ([('A', (⟨0, 0, 64, 64, 58, 2, 62⟩ : CharacterInfo))].map Prod.fst).Nodup ∧
      (([((['c', 'i', 'r', 'c', 'l', 'e'] : Str), (⟨0, 0, 64, 64⟩ : ShapeInfo))]).map Prod.fst).Nodup ∧
      ([(charTileId 'A', ()), (shapeTileId ['c', 'i', 'r', 'c', 'l', 'e'], ())] :
        List (Str × Unit)) ≠ [] ∧
      0 * 2 ≤ 192 / ceilSqrt ([(charTileId 'A', ()),
        (shapeTileId ['c', 'i', 'r', 'c', 'l', 'e'], ())] : List (Str × Unit)).length) ∧
    (∃ atlas positions,
      pack_atlas resampleU
          [(charTileId 'A', ()), (shapeTileId ['c', 'i', 'r', 'c', 'l', 'e'], ())] 192 0 =
        Except.ok (atlas, positions) ∧
      positions.length =
        [('A', (⟨0, 0, 64, 64, 58, 2, 62⟩ : CharacterInfo))].length +
          [((['c', 'i', 'r', 'c', 'l', 'e'] : Str), (⟨0, 0, 64, 64⟩ : ShapeInfo))].length ∧
      ∀ e ∈ positions,
        (([('A', (⟨0, 0, 64, 64, 58, 2, 62⟩ : CharacterInfo))].map Prod.fst).countP
            (fun ch => decide (charTileId ch = e.1)) +
          (([((['c', 'i', 'r', 'c', 'l', 'e'] : Str), (⟨0, 0, 64, 64⟩ : ShapeInfo))].map
            Prod.fst).countP (fun nm => decide (shapeTileId nm = e.1))) = 1)) :=
  ⟨⟨rfl, by decide, by decide, by decide, by decide⟩,
    C5_registry_bijection resampleU
      [('A', ⟨0, 0, 64, 64, 58, 2, 62⟩)]
      [((['c', 'i', 'r', 'c', 'l', 'e'] : Str), ⟨0, 0, 64, 64⟩)]
      [(charTileId 'A', ()), (shapeTileId ['c', 'i', 'r', 'c', 'l', 'e'], ())] 192 0
      rfl (by decide) (by decide) (by decide) (by decide)⟩

/-- C6 (counterexample): the update loop writes only `x` and `y` into the
registry entry; with a 64×64 tile placed into a 96×96 content rectangle the
registry keeps width 64 ≠ 96, so the stored rectangle does not equal the
placement rectangle in all four fields. -/
theorem C6_counterexample :
    lookupKey 'A' (update_positions [('A', ⟨0, 0, 64, 64, 58, 2, 62⟩)] []
        [(charTileId 'A', (⟨5, 7, 96, 96⟩ : AtlasPosition))]).1 =
      some ⟨5, 7, 64, 64, 58, 2, 62⟩ ∧
    (⟨5, 7, 64, 64, 58, 2, 62⟩ : CharacterInfo).width ≠
      (⟨5, 7, 96, 96⟩ : AtlasPosition).width :=
  ⟨rfl, by decide⟩

lemma lookupKey_updateIfKey_ne {κ ν : Type} [DecidableEq κ] {k2 k : κ}
    (hne : k2 ≠ k) (f : ν → ν) (l : List (κ × ν)) :
    lookupKey k (updateIfKey k2 f l) = lookupKey k l := by
  induction l with
  | nil => rfl
  | cons a t ih =>
    show lookupKey k ((if a.1 = k2 then (a.1, f a.2) else a) :: updateIfKey k2 f t) = _
    by_cases h : a.1 = k2
    · rw [if_pos h]
      have hak : ¬ a.1 = k := by
        rw [h]
        exact hne
      simp [lookupKey, hak, ih]
    · rw [if_neg h]
      by_cases h2 : a.1 = k
      · simp [lookupKey, h2]
      · simp [lookupKey, h2, ih]

lemma applyPosition_eq (chars : List (Char × CharacterInfo))
    (shapes : List (Str × ShapeInfo)) (entry : Str × AtlasPosition) :
    applyPosition chars shapes entry = (charUpdate chars entry, shapeUpdate shapes entry) := by
  rcases hc : stripCharTag entry.1 with _ | stripped
  · rcases hs : stripShapeTag entry.1 with _ | nm <;>
      simp [applyPosition, charUpdate, shapeUpdate, hc, hs]
  · rcases hh : stripped.head? with _ | ch <;>
      simp [applyPosition, charUpdate, shapeUpdate, hc, hh]

lemma update_positions_cons (chars : List (Char × CharacterInfo))
    (shapes : List (Str × ShapeInfo)) (p : Str × AtlasPosition)
    (rest : List (Str × AtlasPosition)) :
    update_positions chars shapes (p :: rest) =
      update_positions (applyPosition chars shapes p).1
        (applyPosition chars shapes p).2 rest := rfl

lemma update_positions_fst (positions : List (Str × AtlasPosition)) :
    ∀ chars shapes,
      (update_positions chars shapes positions).1 = positions.foldl charUpdate chars := by
  induction positions with
  | nil => intro chars shapes; rfl
  | cons p rest ih =>
    intro chars shapes
    rw [update_positions_cons, ih, applyPosition_eq, List.foldl_cons]

lemma update_positions_snd (positions : List (Str × AtlasPosition)) :
    ∀ chars shapes,
      (update_positions chars shapes positions).2 = positions.foldl shapeUpdate shapes := by
  induction positions with
  | nil => intro chars shapes; rfl
  | cons p rest ih =>
    intro chars shapes
    rw [update_positions_cons, ih, applyPosition_eq, List.foldl_cons]

lemma map_charSkeleton_updateIfKey (ch : Char) (x0 y0 : Nat)
    (l : List (Char × CharacterInfo)) :
    (updateIfKey ch (fun info => { info with x := x0, y := y0 }) l).map charSkeleton =
      l.map charSkeleton := by
  induction l with
  | nil => rfl
  | cons a t ih =>
    simp only [updateIfKey, List.map_cons] at ih ⊢
    rw [ih]
    congr 1
    by_cases h : a.1 = ch
    · rw [if_pos h]
      rfl
    · rw [if_neg h]

lemma map_shapeSkeleton_updateIfKey (nm : Str) (x0 y0 : Nat)
    (l : List (Str × ShapeInfo)) :
    (updateIfKey nm (fun info => { info with x := x0, y := y0 }) l).map shapeSkeleton =
      l.map shapeSkeleton := by
  induction l with
  | nil => rfl
  | cons a t ih =>
    simp only [updateIfKey, List.map_cons] at ih ⊢
    rw [ih]
    congr 1
    by_cases h : a.1 = nm
    · rw [if_pos h]
      rfl
    · rw [if_neg h]

lemma charUpdate_skeleton (cm : List (Char × CharacterInfo)) (e : Str × AtlasPosition) :
    (charUpdate cm e).map charSkeleton = cm.map charSkeleton := by
  rcases hc : stripCharTag e.1 with _ | stripped
  · simp [charUpdate, hc]
  · rcases hh : stripped.head? with _ | ch
    · simp [charUpdate, hc, hh]
    · simp [charUpdate, hc, hh, map_charSkeleton_updateIfKey]

lemma shapeUpdate_skeleton (sm : List (Str × ShapeInfo)) (e : Str × AtlasPosition) :
    (shapeUpdate sm e).map shapeSkeleton = sm.map shapeSkeleton := by
  rcases hc : stripCharTag e.1 with _ | stripped
  · rcases hs : stripShapeTag e.1 with _ | nm
    · simp [shapeUpdate, hc, hs]
    · simp [shapeUpdate, hc, hs, map_shapeSkeleton_updateIfKey]
  · simp [shapeUpdate, hc]

lemma foldl_charUpdate_skeleton (ps : List (Str × AtlasPosition)) :
    ∀ cm : List (Char × CharacterInfo),
      (ps.foldl charUpdate cm).map charSkeleton = cm.map charSkeleton := by
  induction ps with
  | nil => intro cm; rfl
  | cons p rest ih =>
    intro cm
    rw [List.foldl_cons, ih, charUpdate_skeleton]

lemma foldl_shapeUpdate_skeleton (ps : List (Str × AtlasPosition)) :
    ∀ sm : List (Str × ShapeInfo),
      (ps.foldl shapeUpdate sm).map shapeSkeleton = sm.map shapeSkeleton := by
  induction ps with
  | nil => intro sm; rfl
  | cons p rest ih =>
    intro sm
    rw [List.foldl_cons, ih, shapeUpdate_skeleton]

lemma charUpdate_no_claim {e : Str × AtlasPosition} {ch : Char}
    (h : claimsCharB e.1 ch = false) (cm : List (Char × CharacterInfo)) :
    lookupKey ch (charUpdate cm e) = lookupKey ch cm := by
  rcases hc : stripCharTag e.1 with _ | stripped
  · simp [charUpdate, hc]
  · rcases hh : stripped.head? with _ | ch2
    · simp [charUpdate, hc, hh]
    · have hne : ch2 ≠ ch := by
        intro hEq
        subst hEq
        simp [claimsCharB, hc, hh] at h
      simp only [charUpdate, hc, hh]
      exact lookupKey_updateIfKey_ne hne _ cm

lemma shapeUpdate_no_claim {e : Str × AtlasPosition} {nm : Str}
    (h : claimsShapeB e.1 nm = false) (sm : List (Str × ShapeInfo)) :
    lookupKey nm (shapeUpdate sm e) = lookupKey nm sm := by
  rcases hc : stripCharTag e.1 with _ | stripped
  · rcases hs : stripShapeTag e.1 with _ | nm2
    · simp [shapeUpdate, hc, hs]
    · have hne : nm2 ≠ nm := by
        intro hEq
        subst hEq
        simp [claimsShapeB, hc, hs] at h
      simp only [shapeUpdate, hc, hs]
      exact lookupKey_updateIfKey_ne hne _ sm
  · simp [shapeUpdate, hc]

lemma foldl_charUpdate_no_claim (ps : List (Str × AtlasPosition)) (ch : Char)
    (h : ∀ e ∈ ps, claimsCharB e.1 ch = false) :
    ∀ cm, lookupKey ch (ps.foldl charUpdate cm) = lookupKey ch cm := by
  induction ps with
  | nil => intro cm; rfl
  | cons p rest ih =>
    intro cm
    rw [List.foldl_cons, ih (fun e he => h e (List.mem_cons_of_mem p he)),
      charUpdate_no_claim (h p (List.mem_cons_self p rest))]

lemma foldl_shapeUpdate_no_claim (ps : List (Str × AtlasPosition)) (nm : Str)
    (h : ∀ e ∈ ps, claimsShapeB e.1 nm = false) :
    ∀ sm, lookupKey nm (ps.foldl shapeUpdate sm) = lookupKey nm sm := by
  induction ps with
  | nil => intro sm; rfl
  | cons p rest ih =>
    intro sm
    rw [List.foldl_cons, ih (fun e he => h e (List.mem_cons_of_mem p he)),
      shapeUpdate_no_claim (h p (List.mem_cons_self p rest))]

/-- Folding any run of placements over the character map can change an
entry's `x`/`y` only: the looked-up value keeps all other fields. -/
lemma foldl_charUpdate_lookup (ps : List (Str × AtlasPosition)) (ch : Char) :
    ∀ (cm : List (Char × CharacterInfo)) (info : CharacterInfo),
      lookupKey ch cm = some info →
      ∃ x0 y0, lookupKey ch (ps.foldl charUpdate cm) =
        some ⟨x0, y0, info.width, info.height, info.advance,
          info.bearing_x, info.bearing_y⟩ := by
  induction ps with
  | nil =>
    intro cm info h
    exact ⟨info.x, info.y, h⟩
  | cons p rest ih =>
    intro cm info h
    rw [List.foldl_cons]
    rcases hc : stripCharTag p.1 with _ | stripped
    · have hcu : charUpdate cm p = cm := by simp [charUpdate, hc]
      rw [hcu]
      exact ih cm info h
    · rcases hh : stripped.head? with _ | ch2
      · have hcu : charUpdate cm p = cm := by simp [charUpdate, hc, hh]
        rw [hcu]
        exact ih cm info h
      · have hcu : charUpdate cm p =
            updateIfKey ch2 (fun i => { i with x := p.2.x, y := p.2.y }) cm := by
          simp [charUpdate, hc, hh]
        rw [hcu]
        by_cases he : ch2 = ch
        · subst he
          have h2 : lookupKey ch2
              (updateIfKey ch2 (fun i => { i with x := p.2.x, y := p.2.y }) cm) =
              some ⟨p.2.x, p.2.y, info.width, info.height, info.advance,
                info.bearing_x, info.bearing_y⟩ := by
            rw [lookupKey_updateIfKey, h]
            rfl
          obtain ⟨x0, y0, h3⟩ := ih _ _ h2
          exact ⟨x0, y0, h3⟩
        · have h2 : lookupKey ch
              (updateIfKey ch2 (fun i => { i with x := p.2.x, y := p.2.y }) cm) =
              some info := by
            rw [lookupKey_updateIfKey_ne he]
            exact h
          exact ih _ _ h2

/-- Folding any run of placements over the shape map can change an entry's
`x`/`y` only. -/
lemma foldl_shapeUpdate_lookup (ps : List (Str × AtlasPosition)) (nm : Str) :
    ∀ (sm : List (Str × ShapeInfo)) (info : ShapeInfo),
      lookupKey nm sm = some info →
      ∃ x0 y0, lookupKey nm (ps.foldl shapeUpdate sm) =
        some ⟨x0, y0, info.width, info.height⟩ := by
  induction ps with
  | nil =>
    intro sm info h
    exact ⟨info.x, info.y, h⟩
  | cons p rest ih =>
    intro sm info h
    rw [List.foldl_cons]
    rcases hc : stripCharTag p.1 with _ | stripped
    · rcases hs : stripShapeTag p.1 with _ | nm2
      · have hsu : shapeUpdate sm p = sm := by simp [shapeUpdate, hc, hs]
        rw [hsu]
        exact ih sm info h
      · have hsu : shapeUpdate sm p =
            updateIfKey nm2 (fun i => { i with x := p.2.x, y := p.2.y }) sm := by
          simp [shapeUpdate, hc, hs]
        rw [hsu]
        by_cases he : nm2 = nm
        · subst he
          have h2 : lookupKey nm2
              (updateIfKey nm2 (fun i => { i with x := p.2.x, y := p.2.y }) sm) =
              some ⟨p.2.x, p.2.y, info.width, info.height⟩ := by
            rw [lookupKey_updateIfKey, h]
            rfl
          obtain ⟨x0, y0, h3⟩ := ih _ _ h2
          exact ⟨x0, y0, h3⟩
        · have h2 : lookupKey nm
              (updateIfKey nm2 (fun i => { i with x := p.2.x, y := p.2.y }) sm) =
              some info := by
            rw [lookupKey_updateIfKey_ne he]
            exact h
          exact ih _ _ h2
    · have hsu : shapeUpdate sm p = sm := by simp [shapeUpdate, hc]
      rw [hsu]
      exact ih sm info h

lemma charUpdate_matching (ch : Char) (pos : AtlasPosition)
    (cm : List (Char × CharacterInfo)) :
    charUpdate cm (charTileId ch, pos) =
      updateIfKey ch (fun info => { info with x := pos.x, y := pos.y }) cm := rfl

lemma shapeUpdate_matching (nm : Str) (pos : AtlasPosition)
    (sm : List (Str × ShapeInfo)) :
    shapeUpdate sm (shapeTileId nm, pos) =
      updateIfKey nm (fun info => { info with x := pos.x, y := pos.y }) sm := rfl

/-- C6 (amended): the update loop takes only `x` and `y` from the packer's
placements, for every registry entry of both maps and any run of
placements.  Part one: the whole update changes nothing but `x`/`y`
(key, `width`, `height` and the text metrics of every entry are exactly the
pre-pack values).  Parts two and three: a character or shape entry whose
tile id is placed gets exactly that placement's `x` and `y` (the last
matching placement of the run), while keeping its other fields. -/
theorem C6_xy_only_update (chars : List (Char × CharacterInfo))
    (shapes : List (Str × ShapeInfo)) (positions : List (Str × AtlasPosition)) :
    ((update_positions chars shapes positions).1.map charSkeleton =
        chars.map charSkeleton ∧
      (update_positions chars shapes positions).2.map shapeSkeleton =
        shapes.map shapeSkeleton) ∧
    (∀ (ch : Char) (info : CharacterInfo) (pos : AtlasPosition)
        (ps1 ps2 : List (Str × AtlasPosition)),
      (chars.map Prod.fst).Nodup → (ch, info) ∈ chars →
      positions = ps1 ++ (charTileId ch, pos) :: ps2 →
      (∀ e ∈ ps2, claimsCharB e.1 ch = false) →
      lookupKey ch (update_positions chars shapes positions).1 =
        some { info with x := pos.x, y := pos.y }) ∧
    (∀ (nm : Str) (info : ShapeInfo) (pos : AtlasPosition)
        (ps1 ps2 : List (Str × AtlasPosition)),
      (shapes.map Prod.fst).Nodup → (nm, info) ∈ shapes →
      positions = ps1 ++ (shapeTileId nm, pos) :: ps2 →
      (∀ e ∈ ps2, claimsShapeB e.1 nm = false) →
      lookupKey nm (update_positions chars shapes positions).2 =
        some { info with x := pos.x, y := pos.y }) := by
  refine ⟨⟨?_, ?_⟩, ?_, ?_⟩
  · rw [update_positions_fst]
    exact foldl_charUpdate_skeleton positions chars
  · rw [update_positions_snd]
    exact foldl_shapeUpdate_skeleton positions shapes
  · intro ch info pos ps1 ps2 hnd hmem hsplit hafter
    subst hsplit
    rw [update_positions_fst, List.foldl_append, List.foldl_cons,
      foldl_charUpdate_no_claim ps2 ch hafter, charUpdate_matching,
      lookupKey_updateIfKey]
    obtain ⟨x0, y0, h1⟩ := foldl_charUpdate_lookup ps1 ch chars info
      (lookupKey_eq_of_mem hnd hmem)
    rw [h1]
    rfl
  · intro nm info pos ps1 ps2 hnd hmem hsplit hafter
    subst hsplit
    rw [update_positions_snd, List.foldl_append, List.foldl_cons,
      foldl_shapeUpdate_no_claim ps2 nm hafter, shapeUpdate_matching,
      lookupKey_updateIfKey]
    obtain ⟨x0, y0, h1⟩ := foldl_shapeUpdate_lookup ps1 nm shapes info
      (lookupKey_eq_of_mem hnd hmem)
    rw [h1]
    rfl

/-- C6 witness: a three-placement run (one character, one shape, one
unmatched id) over one character entry and one shape entry; both entries
get the placement's `x`/`y` and keep their native 64×64 dimensions and
metrics. -/
theorem C6_xy_only_update_witness :
    (([('A', (⟨0, 0, 64, 64, 58, 2, 62⟩ : CharacterInfo))].map Prod.fst).Nodup ∧
      ('A', (⟨0, 0, 64, 64, 58, 2, 62⟩ : CharacterInfo)) ∈
        [('A', (⟨0, 0, 64, 64, 58, 2, 62⟩ : CharacterInfo))] ∧
      (∀ e ∈ [(shapeTileId ['c', 'i', 'r', 'c', 'l', 'e'],
          (⟨96, 7, 96, 96⟩ : AtlasPosition)),
          ((['b', 'o', 'g', 'u', 's'] : Str), (⟨1, 2, 3, 4⟩ : AtlasPosition))],
        claimsCharB e.1 'A' = false) ∧
      (([((['c', 'i', 'r', 'c', 'l', 'e'] : Str),
          (⟨0, 0, 64, 64⟩ : ShapeInfo))].map Prod.fst).Nodup ∧
      ((['c', 'i', 'r', 'c', 'l', 'e'] : Str), (⟨0, 0, 64, 64⟩ : ShapeInfo)) ∈
        [((['c', 'i', 'r', 'c', 'l', 'e'] : Str), (⟨0, 0, 64, 64⟩ : ShapeInfo))] ∧
      (∀ e ∈ [((['b', 'o', 'g', 'u', 's'] : Str), (⟨1, 2, 3, 4⟩ : AtlasPosition))],
        claimsShapeB e.1 ['c', 'i', 'r', 'c', 'l', 'e'] = false))) ∧
    ((update_positions [('A', ⟨0, 0, 64, 64, 58, 2, 62⟩)]
        [((['c', 'i', 'r', 'c', 'l', 'e'] : Str), ⟨0, 0, 64, 64⟩)]
        [(charTileId 'A', ⟨5, 7, 96, 96⟩),
          (shapeTileId ['c', 'i', 'r', 'c', 'l', 'e'], ⟨96, 7, 96, 96⟩),
          (['b', 'o', 'g', 'u', 's'], ⟨1, 2, 3, 4⟩)]).1.map charSkeleton =
      [('A', (⟨0, 0, 64, 64, 58, 2, 62⟩ : CharacterInfo))].map charSkeleton ∧
    (update_positions [('A', ⟨0, 0, 64, 64, 58, 2, 62⟩)]
        [((['c', 'i', 'r', 'c', 'l', 'e'] : Str), ⟨0, 0, 64, 64⟩)]
        [(charTileId 'A', ⟨5, 7, 96, 96⟩),
          (shapeTileId ['c', 'i', 'r', 'c', 'l', 'e'], ⟨96, 7, 96, 96⟩),
          (['b', 'o', 'g', 'u', 's'], ⟨1, 2, 3, 4⟩)]).2.map shapeSkeleton =
      [((['c', 'i', 'r', 'c', 'l', 'e'] : Str),
        (⟨0, 0, 64, 64⟩ : ShapeInfo))].map shapeSkeleton ∧
    lookupKey 'A' (update_positions [('A', ⟨0, 0, 64, 64, 58, 2, 62⟩)]
        [((['c', 'i', 'r', 'c', 'l', 'e'] : Str), ⟨0, 0, 64, 64⟩)]
        [(charTileId 'A', ⟨5, 7, 96, 96⟩),
          (shapeTileId ['c', 'i', 'r', 'c', 'l', 'e'], ⟨96, 7, 96, 96⟩),
          (['b', 'o', 'g', 'u', 's'], ⟨1, 2, 3, 4⟩)]).1 =
      some (⟨5, 7, 64, 64, 58, 2, 62⟩ : CharacterInfo) ∧
    lookupKey ['c', 'i', 'r', 'c', 'l', 'e']
      (update_positions [('A', ⟨0, 0, 64, 64, 58, 2, 62⟩)]
        [((['c', 'i', 'r', 'c', 'l', 'e'] : Str), ⟨0, 0, 64, 64⟩)]
        [(charTileId 'A', ⟨5, 7, 96, 96⟩),
          (shapeTileId ['c', 'i', 'r', 'c', 'l', 'e'], ⟨96, 7, 96, 96⟩),
          (['b', 'o', 'g', 'u', 's'], ⟨1, 2, 3, 4⟩)]).2 =
      some (⟨96, 7, 64, 64⟩ : ShapeInfo)) := by
  have h := C6_xy_only_update [('A', ⟨0, 0, 64, 64, 58, 2, 62⟩)]
    [((['c', 'i', 'r', 'c', 'l', 'e'] : Str), ⟨0, 0, 64, 64⟩)]
    [(charTileId 'A', ⟨5, 7, 96, 96⟩),
      (shapeTileId ['c', 'i', 'r', 'c', 'l', 'e'], ⟨96, 7, 96, 96⟩),
      (['b', 'o', 'g', 'u', 's'], ⟨1, 2, 3, 4⟩)]
  refine ⟨⟨by decide, by simp, by decide, by decide, by simp, by decide⟩,
    h.1.1, h.1.2, ?_, ?_⟩
  · exact h.2.1 'A' ⟨0, 0, 64, 64, 58, 2, 62⟩ ⟨5, 7, 96, 96⟩ []
      [(shapeTileId ['c', 'i', 'r', 'c', 'l', 'e'], ⟨96, 7, 96, 96⟩),
        (['b', 'o', 'g', 'u', 's'], ⟨1, 2, 3, 4⟩)]
      (by decide) (by simp) rfl (by decide)
  · exact h.2.2 ['c', 'i', 'r', 'c', 'l', 'e'] ⟨0, 0, 64, 64⟩ ⟨96, 7, 96, 96⟩
      [(charTileId 'A', ⟨5, 7, 96, 96⟩)]
      [((['b', 'o', 'g', 'u', 's'] : Str), ⟨1, 2, 3, 4⟩)]
      (by decide) (by simp) rfl (by decide)

lemma foldl_min_le_init (l : List ℝ) (a : ℝ) : l.foldl min a ≤ a := by
  induction l generalizing a with
  | nil => simp
  | cons b t ih => exact le_trans (ih (min a b)) (min_le_left a b)

lemma foldl_min_pos (l : List ℝ) (a : ℝ) (ha : 0 < a)
    (hl : ∀ v ∈ l, 0 < v) : 0 < l.foldl min a := by
  induction l generalizing a with
  | nil => simpa using ha
  | cons b t ih =>
    have hb : 0 < b := hl b (List.mem_cons_self b t)
    exact ih (min a b) (lt_min ha hb) (fun v hv => hl v (List.mem_cons_of_mem b hv))

/-- Every boundary candidate is strictly positive: a candidate only arises
from an offset whose neighbour classification differs from the centre's, so
the offset is non-zero and its Euclidean length is at least `1`. -/
lemma boundaryCandidates_pos (mask : GrayImage) (x y : Nat) (r : Int)
    (v : ℝ) (hv : v ∈ boundaryCandidates mask x y r) : 0 < v := by
  rw [boundaryCandidates, List.mem_filterMap] at hv
  obtain ⟨d, _, hd⟩ := hv
  dsimp only at hd
  split at hd
  case isFalse => exact absurd hd (by simp)
  case isTrue hb =>
    split at hd
    case isFalse => exact absurd hd (by simp)
    case isTrue hcl =>
      have hveq : Real.sqrt ((d.2 * d.2 + d.1 * d.1 : Int) : ℝ) = v :=
        Option.some.inj hd
      have hdne : ¬ (d.2 = 0 ∧ d.1 = 0) := by
        rintro ⟨h2, h1⟩
        rw [h2, h1] at hcl
        simp only [add_zero, Int.toNat_natCast] at hcl
        exact hcl rfl
      have hq : (0 : Int) < d.2 * d.2 + d.1 * d.1 := by
        rcases not_and_or.mp hdne with h2 | h1
        · have hp := mul_self_pos.mpr h2
          nlinarith [mul_self_nonneg d.1]
        · have hp := mul_self_pos.mpr h1
          nlinarith [mul_self_nonneg d.2]
      have hqr : (0 : ℝ) < ((d.2 * d.2 + d.1 * d.1 : Int) : ℝ) := by
        exact_mod_cast hq
      rw [← hveq]
      exact Real.sqrt_pos.mpr hqr

/-- The result of `calculate_distance_to_edge` is `±m` for some
`0 < m ≤ max_range`, the sign chosen by the centre pixel's
classification. -/
lemma calculate_distance_to_edge_cases (mask : GrayImage) (x y : Nat) (range : ℝ)
    (hr : 0 < range) :
    ∃ m : ℝ, 0 < m ∧ m ≤ range ∧
      calculate_distance_to_edge mask x y range =
        if insideAt mask x y then -m else m := by
  refine ⟨(boundaryCandidates mask x y ⌈range⌉).foldl min range, ?_, ?_, rfl⟩
  · exact foldl_min_pos _ _ hr (fun v hv => boundaryCandidates_pos mask x y _ v hv)
  · exact foldl_min_le_init _ _

/-- C3: for any in-bounds pixel of a mask with a boundary, the signed
distance is negative exactly when the pixel is classified inside, positive
exactly when classified outside, and its absolute value is at most `range`
after clamping (the fold starts at `range` and only decreases). -/
theorem C3_sign_and_clamp (mask : GrayImage) (x y : Nat) (range : ℝ)
    (hw : 0 < mask.width) (hh : 0 < mask.height)
    (hx : x < mask.width) (hy : y < mask.height) (hr : 0 < range)
    (hin : ∃ i j, i < mask.width ∧ j < mask.height ∧ insideAt mask i j = true)
    (hout : ∃ i j, i < mask.width ∧ j < mask.height ∧ insideAt mask i j = false) :
    (calculate_distance_to_edge mask x y range < 0 ↔ insideAt mask x y = true) ∧
    (0 < calculate_distance_to_edge mask x y range ↔ insideAt mask x y = false) ∧
    |calculate_distance_to_edge mask x y range| ≤ range := by
  obtain ⟨m, hm0, hmr, heq⟩ := calculate_distance_to_edge_cases mask x y range hr
  rw [heq]
  cases hcl : insideAt mask x y with
  | false =>
    rw [if_neg (by simp : ¬ (false = true))]
    refine ⟨?_, ?_, ?_⟩
    · exact iff_of_false (not_lt.mpr hm0.le) (by simp)
    · exact iff_of_true hm0 rfl
    · rw [abs_of_pos hm0]
      exact hmr
  | true =>
    rw [if_pos rfl]
    refine ⟨?_, ?_, ?_⟩
    · exact iff_of_true (neg_lt_zero.mpr hm0) rfl
    · exact iff_of_false (not_lt.mpr (neg_nonpos.mpr hm0.le)) (by simp)
    · rw [abs_neg, abs_of_pos hm0]
      exact hmr

/-- C3 witness: on the 2×1 mask with one interior and one exterior pixel and
`range = 4`, the interior pixel's distance is negative and bounded. -/
theorem C3_sign_and_clamp_witness :
    ((0 : ℝ) < 4 ∧ insideAt witMask 0 0 = true ∧ insideAt witMask 1 0 = false) ∧
    ((calculate_distance_to_edge witMask 0 0 4 < 0 ↔ insideAt witMask 0 0 = true) ∧
      (0 < calculate_distance_to_edge witMask 0 0 4 ↔ insideAt witMask 0 0 = false) ∧
      |calculate_distance_to_edge witMask 0 0 4| ≤ 4) :=
  ⟨⟨by norm_num, by decide, by decide⟩,
    C3_sign_and_clamp witMask 0 0 4 (by decide) (by decide) (by decide) (by decide)
      (by norm_num) ⟨0, 0, by decide, by decide, by decide⟩
      ⟨1, 0, by decide, by decide, by decide⟩⟩

/-- C9: the multi-channel generator is the replicated-scalar degraded mode:
each of its three channels equals the single-channel field pixel for
pixel. -/
theorem C9_msdf_replicates_scalar (mask : GrayImage) (range : ℝ)
    (hw : 0 < mask.width) (hh : 0 < mask.height) (hr : 0 < range)
    (x y : Nat) (hx : x < mask.width) (hy : y < mask.height) :
    (generate_msdf_from_mask mask range).pixel x y =
      ((generate_sdf_from_mask mask range).pixel x y,
       (generate_sdf_from_mask mask range).pixel x y,
       (generate_sdf_from_mask mask range).pixel x y) := rfl

/-- C9 witness: the 2×1 mask at `range = 4`, pixel `(0, 0)`. -/
theorem C9_msdf_replicates_scalar_witness :
    (0 < witMask.width ∧ 0 < witMask.height ∧ (0 : ℝ) < 4 ∧
      0 < witMask.width ∧ 0 < witMask.height) ∧
    (generate_msdf_from_mask witMask 4).pixel 0 0 =
      ((generate_sdf_from_mask witMask 4).pixel 0 0,
       (generate_sdf_from_mask witMask 4).pixel 0 0,
       (generate_sdf_from_mask witMask 4).pixel 0 0) :=
  ⟨⟨by decide, by decide, by norm_num, by decide, by decide⟩,
    C9_msdf_replicates_scalar witMask 4 (by decide) (by decide) (by norm_num)
      0 0 (by decide) (by decide)⟩

lemma filterMap_congr_mem {γ δ : Type} (l : List γ) (f g : γ → Option δ)
    (h : ∀ a ∈ l, f a = g a) : l.filterMap f = l.filterMap g := by
  induction l with
  | nil => rfl
  | cons a t ih =>
    rw [List.filterMap_cons, List.filterMap_cons, h a (List.mem_cons_self a t),
      ih (fun b hb => h b (List.mem_cons_of_mem a hb))]

/-- C10: the neighbourhood search reads only in-bounds mask pixels — its
result is unchanged under any modification of the mask outside its bounds —
and, being a total function, always returns a value even when the search
window of radius `⌈range⌉` extends past the edges. -/
theorem C10_reads_only_in_bounds (m1 m2 : GrayImage) (x y : Nat) (range : ℝ)
    (hw : m1.width = m2.width) (hh : m1.height = m2.height)
    (hx : x < m1.width) (hy : y < m1.height) (hr : 0 < range)
    (hagree : ∀ i, i < m1.width → ∀ j, j < m1.height → m1.pixel i j = m2.pixel i j) :
    calculate_distance_to_edge m1 x y range = calculate_distance_to_edge m2 x y range := by
  have hcentre : insideAt m1 x y = insideAt m2 x y := by
    unfold insideAt
    rw [hagree x hx y hy]
  have hcand : boundaryCandidates m1 x y ⌈range⌉ = boundaryCandidates m2 x y ⌈range⌉ := by
    unfold boundaryCandidates
    apply filterMap_congr_mem
    intro d _
    dsimp only
    rw [← hw, ← hh]
    by_cases hb : (0 ≤ (x : Int) + d.2 ∧ (x : Int) + d.2 < (m1.width : Int) ∧
        0 ≤ (y : Int) + d.1 ∧ (y : Int) + d.1 < (m1.height : Int))
    · rw [if_pos hb, if_pos hb]
      have hnx : ((x : Int) + d.2).toNat < m1.width := by omega
      have hny : ((y : Int) + d.1).toNat < m1.height := by omega
      have hnbr : insideAt m1 ((x : Int) + d.2).toNat ((y : Int) + d.1).toNat =
          insideAt m2 ((x : Int) + d.2).toNat ((y : Int) + d.1).toNat := by
        unfold insideAt
        rw [hagree _ hnx _ hny]
      rw [hnbr, hcentre]
    · rw [if_neg hb, if_neg hb]
  unfold calculate_distance_to_edge
  dsimp only
  rw [hcand, hcentre]

/-- C10 witness: `witMaskJunk` differs from `witMask` only outside the 2×1
bounds, and the computed distance at the in-bounds pixel `(0, 0)` is
identical. -/
theorem C10_reads_only_in_bounds_witness :
    (witMask.width = witMaskJunk.width ∧ witMask.height = witMaskJunk.height ∧
      (0 : ℝ) < 4 ∧
      ∀ i, i < witMask.width → ∀ j, j < witMask.height →
        witMask.pixel i j = witMaskJunk.pixel i j) ∧
    calculate_distance_to_edge witMask 0 0 4 =
      calculate_distance_to_edge witMaskJunk 0 0 4 :=
  ⟨⟨rfl, rfl, by norm_num, by decide⟩,
    C10_reads_only_in_bounds witMask witMaskJunk 0 0 4 rfl rfl (by decide) (by decide)
      (by norm_num) (by decide)⟩

end SdfGen
